import Mathlib

/-!
# Verification of the IntelligentHub core against its specification

Shallow embedding of the core algorithms of the IntelligentHub repository
(`app/qa_engine.py`, `app/app.py`, `app/file_loader.py`) and proofs of the
specification claims about them.

* Named-entity span merging and masking (`_apply_span_masks` in
  `app/qa_engine.py`): spans are character intervals `[start, stop)` with a
  string label; overlapping spans are merged with a label-priority rule and
  the merged spans are rewritten to placeholder tokens.
* Hub manifests and drift detection (`build_manifest` / `manifests_equal`
  in `app/app.py`).
* Chunking, index building and query-time error handling.
* The auto-sync polling loop in `page_settings` (`app/app.py`).

Text is modelled as `List Char`; Python string slicing `text[a:b]`
(with its clamping behaviour) is `(text.drop a).take (b - a)`.
-/

/-- A labeled character span, as produced by the named-entity recognizer in
`sanitize_text` (`app/qa_engine.py`): the Python dict
`{"start": int, "end": int, "label": str}`.  The field `end` is rendered
`stop` because `end` is a Lean keyword. -/
structure Span where
  start : Nat
  stop : Nat
  label : String
deriving DecidableEq, Repr

/-- The label-priority table of `_apply_span_masks`
(`app/qa_engine.py` line 91): `{"PERSON": 4, "ORG": 3, "GPE": 2, "LOC": 2,
"NORP": 1, "PRODUCT": 1}`, with `.get(label, 0)` defaulting to 0. -/
def label_priority (l : String) : Nat :=
  if l = "PERSON" then 4
  else if l = "ORG" then 3
  else if l = "GPE" then 2
  else if l = "LOC" then 2
  else if l = "NORP" then 1
  else if l = "PRODUCT" then 1
  else 0

/-- The sort key of `sorted(spans, key=lambda s: (s["start"], s["end"]))`:
lexicographic comparison on `(start, end)`.  Python `sorted` is a stable
sort with respect to this (total, transitive) comparison, as is
`List.mergeSort`. -/
def spanLe (a b : Span) : Bool :=
  a.start < b.start || (a.start == b.start && a.stop ≤ b.stop)

/-- One iteration of the merge loop of `_apply_span_masks`
(`app/qa_engine.py` lines 85-96).  State is `(merged, prev)`: the list of
frozen merged spans and the current span being extended (`None` initially).
If the next span starts at or before the current span's end, the current
span's end is extended to the max of the two ends and its label is replaced
only when the next label has strictly higher priority; otherwise the
current span is frozen and the next span becomes current. -/
def mergeSpan (prev s : Span) : Span :=
  { start := prev.start,
    stop := max prev.stop s.stop,
    label := if label_priority s.label > label_priority prev.label
             then s.label else prev.label }

/-- One iteration body applied to the loop state. -/
def mergeStep : List Span × Option Span → Span → List Span × Option Span
  | (merged, none), s => (merged, some s)
  | (merged, some prev), s =>
    if s.start ≤ prev.stop then
      (merged, some (mergeSpan prev s))
    else
      (merged ++ [prev], some s)

/-- The tail of the merge loop (`app/qa_engine.py` lines 97-98):
`if prev: merged.append(prev)`. -/
def finishMerge : List Span × Option Span → List Span
  | (merged, none) => merged
  | (merged, some p) => merged ++ [p]

/-- The merge phase of `_apply_span_masks` (`app/qa_engine.py` lines
82-98): sort the spans by `(start, end)` and run the merge loop, appending
the final current span. -/
def mergeSpans (spans : List Span) : List Span :=
  finishMerge ((spans.mergeSort spanLe).foldl mergeStep ([], none))

/-- The placeholder map of `_apply_span_masks` (`app/qa_engine.py` lines
102-109), with `.get(label, "[ENTITY]")` defaulting to `[ENTITY]`. -/
def label_map (l : String) : String :=
  if l = "PERSON" then "[PERSON]"
  else if l = "ORG" then "[ORG]"
  else if l = "GPE" then "[LOCATION]"
  else if l = "LOC" then "[LOCATION]"
  else if l = "NORP" then "[AFFILIATION]"
  else if l = "PRODUCT" then "[PRODUCT]"
  else "[ENTITY]"

/-- Python slice `text[a:b]` on a string of characters: clamping, empty
when `b ≤ a`. -/
def pySlice (text : List Char) (a b : Nat) : List Char :=
  (text.drop a).take (b - a)

/-- The rewrite phase of `_apply_span_masks` (`app/qa_engine.py` lines
100-116), generic in the replacement text chosen for each merged span:
walk the merged spans left to right keeping `last_idx`, copying
`text[last_idx:s.start]` when `last_idx < s.start`, emitting the
replacement, and setting `last_idx` to the span's end; finally append
`text[last_idx:]`. -/
def renderMasks (repl : Span → List Char) (text : List Char) :
    List Span → Nat → List Char
  | [], last_idx => text.drop last_idx
  | s :: rest, last_idx =>
      (if last_idx < s.start then pySlice text last_idx s.start else [])
        ++ repl s ++ renderMasks repl text rest s.stop

/-- `_apply_span_masks(text, spans)` (`app/qa_engine.py` lines 80-116):
merge the spans, then rewrite each merged span to its label's placeholder
token. -/
def apply_span_masks (text : List Char) (spans : List Span) : List Char :=
  renderMasks (fun s => (label_map s.label).data) text (mergeSpans spans) 0

/-- The merge walk exactly as §4.1 of the spec words it: "walk in order,
and whenever the next span's start is `<=` the current merged span's end,
extend the merged span's end to the max of the two, and replace its label
with the overlapping span's label only if that label has strictly higher
priority ...; ties keep the earlier label". -/
def mergeWalk : Span → List Span → List Span
  | cur, [] => [cur]
  | cur, s :: rest =>
    if s.start ≤ cur.stop then
      mergeWalk (mergeSpan cur s) rest
    else
      cur :: mergeWalk s rest

/-- The merge step as §4.1 of the spec words it: "sort by `(start, end)`",
then walk in order with `mergeWalk`. -/
def mergeSpansSpec (spans : List Span) : List Span :=
  match spans.mergeSort spanLe with
  | [] => []
  | s :: rest => mergeWalk s rest

theorem foldl_mergeStep_eq_walk (l : List Span) (acc : List Span) (cur : Span) :
    (l.foldl mergeStep (acc, some cur)).1
        ++ ((l.foldl mergeStep (acc, some cur)).2.toList)
      = acc ++ mergeWalk cur l := by
  induction l generalizing acc cur with
  | nil => simp [mergeWalk]
  | cons s rest ih =>
    simp only [List.foldl_cons, mergeStep, mergeWalk]
    by_cases h : s.start ≤ cur.stop
    · simp only [if_pos h]
      exact ih acc _
    · simp only [if_neg h]
      rw [ih (acc ++ [cur]) s]
      simp

theorem finishMerge_eq (r : List Span × Option Span) :
    finishMerge r = r.1 ++ r.2.toList := by
  obtain ⟨m, p⟩ := r
  cases p <;> simp [finishMerge]

theorem spanLe_trans (a b c : Span) (hab : spanLe a b = true)
    (hbc : spanLe b c = true) : spanLe a c = true := by
  simp only [spanLe, Bool.or_eq_true, Bool.and_eq_true, decide_eq_true_eq,
    beq_iff_eq] at *
  omega

theorem spanLe_total (a b : Span) : (spanLe a b || spanLe b a) = true := by
  simp only [spanLe, Bool.or_eq_true, Bool.and_eq_true, decide_eq_true_eq,
    beq_iff_eq]
  omega

theorem spanLe_start {a b : Span} (h : spanLe a b = true) :
    a.start ≤ b.start := by
  simp only [spanLe, Bool.or_eq_true, Bool.and_eq_true, decide_eq_true_eq,
    beq_iff_eq] at h
  omega

theorem mergeSpans_eq_walk (spans : List Span) :
    mergeSpans spans = (match spans.mergeSort spanLe with
      | [] => []
      | s :: rest => mergeWalk s rest) := by
  unfold mergeSpans
  cases h : spans.mergeSort spanLe with
  | nil => simp [h, finishMerge]
  | cons s rest =>
    rw [List.foldl_cons, finishMerge_eq]
    have hstep : mergeStep ([], none) s = ([], some s) := rfl
    rw [hstep, foldl_mergeStep_eq_walk rest [] s]
    simp

/-- C1: the span-merge step of `_apply_span_masks` behaves exactly as the
specification describes it: sorting by `(start, end)`, walking in order,
extending the merged span's end to the max when the next span starts at or
before its end, and replacing the label only on strictly higher priority
under PERSON(4) > ORG(3) > GPE(2) = LOC(2) > NORP(1) = PRODUCT(1), unknown
labels 0, ties keeping the earlier label (`mergeSpans`, the code, equals
`mergeSpansSpec`, the specification's wording). -/
theorem mergeSpans_correct (spans : List Span) :
    mergeSpans spans = mergeSpansSpec spans := by
  rw [mergeSpans_eq_walk, mergeSpansSpec]

theorem mergeWalk_start_le (l : List Span) (cur : Span)
    (hpw : l.Pairwise (fun a b => a.start ≤ b.start))
    (hc : ∀ x ∈ l, cur.start ≤ x.start) :
    ∀ y ∈ mergeWalk cur l, cur.start ≤ y.start := by
  induction l generalizing cur with
  | nil =>
    intro y hy
    simp only [mergeWalk, List.mem_singleton] at hy
    simp [hy]
  | cons s rest ih =>
    intro y hy
    rw [mergeWalk] at hy
    rcases List.pairwise_cons.mp hpw with ⟨hs, hrest⟩
    by_cases h : s.start ≤ cur.stop
    · rw [if_pos h] at hy
      exact ih (mergeSpan cur s) hrest
        (fun x hx => le_trans (hc s (by simp)) (hs x hx)) y hy
    · rw [if_neg h] at hy
      rcases List.mem_cons.mp hy with rfl | hy
      · exact le_refl _
      · exact le_trans (hc s (by simp)) (ih s hrest hs y hy)

theorem mergeWalk_pairwise (l : List Span) (cur : Span)
    (hpw : l.Pairwise (fun a b => a.start ≤ b.start))
    (hc : ∀ x ∈ l, cur.start ≤ x.start) :
    (mergeWalk cur l).Pairwise (fun a b => a.stop < b.start) := by
  induction l generalizing cur with
  | nil => simp [mergeWalk]
  | cons s rest ih =>
    rw [mergeWalk]
    rcases List.pairwise_cons.mp hpw with ⟨hs, hrest⟩
    by_cases h : s.start ≤ cur.stop
    · rw [if_pos h]
      exact ih (mergeSpan cur s) hrest
        (fun x hx => le_trans (hc s (by simp)) (hs x hx))
    · rw [if_neg h]
      refine List.pairwise_cons.mpr ⟨?_, ih s hrest hs⟩
      intro y hy
      exact lt_of_lt_of_le (Nat.lt_of_not_le h)
        (mergeWalk_start_le rest s hrest hs y hy)

theorem mergeWalk_wf (l : List Span) (cur : Span)
    (hl : ∀ x ∈ l, x.start ≤ x.stop) (hcur : cur.start ≤ cur.stop) :
    ∀ y ∈ mergeWalk cur l, y.start ≤ y.stop := by
  induction l generalizing cur with
  | nil =>
    intro y hy
    simp only [mergeWalk, List.mem_singleton] at hy
    simp [hy, hcur]
  | cons s rest ih =>
    intro y hy
    rw [mergeWalk] at hy
    by_cases h : s.start ≤ cur.stop
    · rw [if_pos h] at hy
      refine ih _ (fun x hx => hl x (by simp [hx])) ?_ y hy
      exact le_trans hcur (le_max_left _ _)
    · rw [if_neg h] at hy
      rcases List.mem_cons.mp hy with rfl | hy
      · exact hcur
      · exact ih _ (fun x hx => hl x (by simp [hx])) (hl s (by simp)) y hy

theorem pySlice_append_drop (text : List Char) (a b : Nat) (h : a ≤ b) :
    pySlice text a b ++ text.drop b = text.drop a := by
  have hb : text.drop b = List.drop (b - a) (List.drop a text) := by
    rw [List.drop_drop]
    congr 1
    omega
  rw [pySlice, hb, List.take_append_drop]

theorem renderMasks_id (text : List Char) (merged : List Span) :
    ∀ last_idx : Nat,
    (∀ s ∈ merged, s.start ≤ s.stop) →
    merged.Pairwise (fun a b => a.stop ≤ b.start) →
    (∀ s ∈ merged, last_idx ≤ s.start) →
    renderMasks (fun s => pySlice text s.start s.stop) text merged last_idx
      = text.drop last_idx := by
  induction merged with
  | nil => intro last_idx _ _ _; rfl
  | cons s rest ih =>
    intro last_idx hwf hpw hla
    rcases List.pairwise_cons.mp hpw with ⟨hs, hrest⟩
    have h1 : last_idx ≤ s.start := hla s (by simp)
    have h2 : s.start ≤ s.stop := hwf s (by simp)
    rw [renderMasks, ih s.stop (fun x hx => hwf x (by simp [hx])) hrest hs]
    have h3 : pySlice text s.start s.stop ++ text.drop s.stop
        = text.drop s.start := pySlice_append_drop text _ _ h2
    by_cases h : last_idx < s.start
    · rw [if_pos h, List.append_assoc, h3,
        pySlice_append_drop text _ _ h1]
    · have : last_idx = s.start := by omega
      rw [if_neg h, this, List.nil_append, h3]

/-- C2: for every text and every list of well-formed entity spans
(`start ≤ end`), the merged spans actually applied by `_apply_span_masks`
are pairwise non-overlapping (each merged span ends strictly before the
next begins), and all text outside the merged spans is copied to the
output verbatim: rendering the merged spans with each span replaced by the
very text it covers reconstructs the input exactly. -/
theorem apply_span_masks_nonoverlap_verbatim (text : List Char)
    (spans : List Span) (hwf : ∀ s ∈ spans, s.start ≤ s.stop) :
    (mergeSpans spans).Pairwise (fun a b => a.stop < b.start) ∧
    renderMasks (fun s => pySlice text s.start s.stop) text
      (mergeSpans spans) 0 = text := by
  rw [mergeSpans_eq_walk]
  have hsorted := List.sorted_mergeSort spanLe_trans spanLe_total spans
  have hperm := List.mergeSort_perm spans spanLe
  cases hms : spans.mergeSort spanLe with
  | nil => simp [renderMasks]
  | cons s rest =>
    rw [hms] at hsorted hperm
    have hmem : ∀ x ∈ s :: rest, x.start ≤ x.stop := by
      intro x hx
      exact hwf x (hperm.mem_iff.mp hx)
    rcases List.pairwise_cons.mp hsorted with ⟨hs0, hrest0⟩
    have hs : ∀ x ∈ rest, s.start ≤ x.start :=
      fun x hx => spanLe_start (hs0 x hx)
    have hrest : rest.Pairwise (fun a b => a.start ≤ b.start) :=
      hrest0.imp (fun h => spanLe_start h)
    have hpw := mergeWalk_pairwise rest s hrest hs
    refine ⟨hpw, ?_⟩
    have hdrop0 : text.drop 0 = text := List.drop_zero text
    rw [← hdrop0]
    refine renderMasks_id text _ 0 ?_ (hpw.imp (fun h => Nat.le_of_lt h))
      (fun x _ => Nat.zero_le _)
    exact mergeWalk_wf rest s
      (fun x hx => hmem x (by simp [hx])) (hmem s (by simp))

/-- Witness for C2 at a concrete input: text `"Call Jane Doe now"` with
overlapping spans `[5,9)`/`[8,13)` labeled PERSON. -/
theorem apply_span_masks_nonoverlap_verbatim_witness :
    (mergeSpans [⟨5, 9, "PERSON"⟩, ⟨8, 13, "PERSON"⟩]).Pairwise
        (fun a b => a.stop < b.start) ∧
    renderMasks (fun s => pySlice "Call Jane Doe now".data s.start s.stop)
      "Call Jane Doe now".data
      (mergeSpans [⟨5, 9, "PERSON"⟩, ⟨8, 13, "PERSON"⟩]) 0
      = "Call Jane Doe now".data :=
  apply_span_masks_nonoverlap_verbatim "Call Jane Doe now".data
    [⟨5, 9, "PERSON"⟩, ⟨8, 13, "PERSON"⟩] (by decide)

/-- The `(start, end)` sort key of a span. -/
def spanKey (s : Span) : Nat × Nat := (s.start, s.stop)

/-- Strict lexicographic order on the `(start, end)` keys. -/
def spanLt (a b : Span) : Prop :=
  a.start < b.start ∨ (a.start = b.start ∧ a.stop < b.stop)

theorem spanLt_of_le_of_ne {a b : Span} (h1 : spanLe a b = true)
    (h2 : spanKey a ≠ spanKey b) : spanLt a b := by
  simp only [spanLe, Bool.or_eq_true, Bool.and_eq_true, decide_eq_true_eq,
    beq_iff_eq] at h1
  simp only [spanKey, ne_eq, Prod.mk.injEq, not_and] at h2
  unfold spanLt
  omega

theorem mergeSort_eq_of_perm (l₁ l₂ : List Span) (hp : l₁.Perm l₂)
    (hn : (l₁.map spanKey).Nodup) :
    l₁.mergeSort spanLe = l₂.mergeSort spanLe := by
  have h1 := List.mergeSort_perm l₁ spanLe
  have h2 := List.mergeSort_perm l₂ spanLe
  have hperm : (l₁.mergeSort spanLe).Perm (l₂.mergeSort spanLe) :=
    h1.trans (hp.trans h2.symm)
  have hn1 : ((l₁.mergeSort spanLe).map spanKey).Nodup :=
    ((h1.map spanKey).nodup_iff).mpr hn
  have hn2 : ((l₂.mergeSort spanLe).map spanKey).Nodup :=
    ((hperm.map spanKey).nodup_iff).mp hn1
  have hs1 := List.sorted_mergeSort spanLe_trans spanLe_total l₁
  have hs2 := List.sorted_mergeSort spanLe_trans spanLe_total l₂
  have hlt1 : (l₁.mergeSort spanLe).Pairwise spanLt :=
    ((hs1.and (List.pairwise_map.mp hn1)).imp
      (fun h => spanLt_of_le_of_ne h.1 h.2))
  have hlt2 : (l₂.mergeSort spanLe).Pairwise spanLt :=
    ((hs2.and (List.pairwise_map.mp hn2)).imp
      (fun h => spanLt_of_le_of_ne h.1 h.2))
  haveI : IsAntisymm Span spanLt :=
    ⟨fun a b hab hba => by
      exfalso
      unfold spanLt at hab hba
      omega⟩
  exact List.eq_of_perm_of_sorted hperm hlt1 hlt2

/-- C9 (amended): the masking step is insensitive to span discovery order
provided no two spans share the same `(start, end)` key: for any two span
lists that are permutations of each other whose `(start, end)` keys are
pairwise distinct, `_apply_span_masks` produces identical output. -/
theorem apply_span_masks_perm_invariant (text : List Char)
    (l₁ l₂ : List Span) (hp : l₁.Perm l₂)
    (hn : (l₁.map spanKey).Nodup) :
    apply_span_masks text l₁ = apply_span_masks text l₂ := by
  unfold apply_span_masks mergeSpans
  rw [mergeSort_eq_of_perm l₁ l₂ hp hn]

/-- Witness for C9 (amended) at a concrete input: two permuted span lists
with distinct `(start, end)` keys mask `"Acme met Jane"` identically. -/
theorem apply_span_masks_perm_invariant_witness :
    ([⟨0, 4, "ORG"⟩, ⟨9, 13, "PERSON"⟩] : List Span).Perm
        [⟨9, 13, "PERSON"⟩, ⟨0, 4, "ORG"⟩] ∧
    (([⟨0, 4, "ORG"⟩, ⟨9, 13, "PERSON"⟩] : List Span).map spanKey).Nodup ∧
    apply_span_masks "Acme met Jane".data [⟨0, 4, "ORG"⟩, ⟨9, 13, "PERSON"⟩]
      = apply_span_masks "Acme met Jane".data
          [⟨9, 13, "PERSON"⟩, ⟨0, 4, "ORG"⟩] :=
  ⟨by decide, by decide,
   apply_span_masks_perm_invariant "Acme met Jane".data
     [⟨0, 4, "ORG"⟩, ⟨9, 13, "PERSON"⟩] [⟨9, 13, "PERSON"⟩, ⟨0, 4, "ORG"⟩]
     (by decide) (by decide)⟩

/-- Counterexample to C9 as stated: the span lists
`[(0,2,NORP), (0,2,PRODUCT)]` and `[(0,2,PRODUCT), (0,2,NORP)]` are
permutations of each other (equal as multisets), yet masking `"Hello"`
with them yields `"[AFFILIATION]llo"` versus `"[PRODUCT]llo"`: the stable
sort keeps either order of the two equal-key spans, both have priority 1,
so ties keep whichever label came first. -/
theorem apply_span_masks_order_dependent :
    ([⟨0, 2, "NORP"⟩, ⟨0, 2, "PRODUCT"⟩] : List Span).Perm
        [⟨0, 2, "PRODUCT"⟩, ⟨0, 2, "NORP"⟩] ∧
    apply_span_masks "Hello".data [⟨0, 2, "NORP"⟩, ⟨0, 2, "PRODUCT"⟩]
      ≠ apply_span_masks "Hello".data [⟨0, 2, "PRODUCT"⟩, ⟨0, 2, "NORP"⟩] := by
  constructor
  · decide
  · simp only [apply_span_masks, mergeSpans]
    simp [List.mergeSort, List.splitInTwo_fst, List.splitInTwo_snd,
      List.merge, spanLe, mergeStep, mergeSpan, finishMerge, renderMasks,
      label_map, label_priority, pySlice]

/-- Metadata of one remote file, as assembled by
`collect_files_recursively_from_item` (`app/app.py` lines 173-181): the
dict `{"id", "name", "etag", "size", "lastModifiedDateTime", ...}`. -/
structure FileMeta where
  id : String
  name : String
  etag : String
  size : Nat
  lastModifiedDateTime : String
deriving DecidableEq, Repr

/-- Python dict insertion `d[k] = v` on an association list kept in
insertion order: an existing key has its value updated in place, a new key
is appended. -/
def dictInsert (m : List (String × String)) (k v : String) :
    List (String × String) :=
  if m.any (fun p => p.1 == k) then
    m.map (fun p => if p.1 == k then (k, v) else p)
  else
    m ++ [(k, v)]

/-- Python dict lookup `d.get(k)`. -/
def dictLookup (m : List (String × String)) (k : String) : Option String :=
  match m.find? (fun p => p.1 == k) with
  | some p => some p.2
  | none => none

/-- Python dict equality `a == b`: unordered key-value equality — the same
key set mapped to the same values, insertion order ignored.  (Sound for
the dicts built here, whose keys are unique by construction.) -/
def dictEqb (a b : List (String × String)) : Bool :=
  a.all (fun p => dictLookup b p.1 == some p.2) &&
  b.all (fun p => dictLookup a p.1 == some p.2)

/-- The dict comprehension `{f["id"]: f["etag"] for f in files}`
(`app/app.py` line 210): iterate the pairs in order, inserting each. -/
def dictOfPairs (ps : List (String × String)) : List (String × String) :=
  ps.foldl (fun m p => dictInsert m p.1 p.2) []

/-- The manifest of `build_manifest` (`app/app.py` lines 198-212):
readable file list, id->etag map, and count. -/
structure Manifest where
  files : List FileMeta
  map : List (String × String)
  count : Nat
deriving DecidableEq, Repr

/-- `build_manifest(files)` (`app/app.py` lines 198-212). -/
def build_manifest (files : List FileMeta) : Manifest :=
  { files := files,
    map := dictOfPairs (files.map (fun f => (f.id, f.etag))),
    count := files.length }

/-- `manifests_equal(a, b)` (`app/app.py` lines 215-216):
`a.get("map") == b.get("map") and a.get("count") == b.get("count")`. -/
def manifests_equal (a b : Manifest) : Bool :=
  dictEqb a.map b.map && (a.count == b.count)

theorem dictInsert_keys (m : List (String × String)) (k v : String) :
    (dictInsert m k v).map Prod.fst
      = if m.any (fun p => p.1 == k) then m.map Prod.fst
        else m.map Prod.fst ++ [k] := by
  unfold dictInsert
  by_cases h : m.any (fun p => p.1 == k)
  · rw [if_pos h, if_pos h, List.map_map]
    refine List.map_congr_left ?_
    intro p _
    by_cases hp : p.1 == k
    · simp only [Function.comp_apply, if_pos hp]
      exact (beq_iff_eq.mp hp).symm
    · simp only [Function.comp_apply, if_neg hp]
  · rw [if_neg h, if_neg h, List.map_append]
    rfl

theorem dictInsert_keys_nodup (m : List (String × String)) (k v : String)
    (h : (m.map Prod.fst).Nodup) : ((dictInsert m k v).map Prod.fst).Nodup := by
  rw [dictInsert_keys]
  by_cases hk : m.any (fun p => p.1 == k)
  · rw [if_pos hk]; exact h
  · rw [if_neg hk]
    rw [← List.concat_eq_append]
    refine List.Nodup.concat ?_ h
    intro hmem
    rcases List.mem_map.mp hmem with ⟨p, hp, hpk⟩
    exact hk (List.any_eq_true.mpr ⟨p, hp, by simp [hpk]⟩)

theorem dictOfPairs_keys_nodup (ps : List (String × String)) :
    ((dictOfPairs ps).map Prod.fst).Nodup := by
  suffices h : ∀ m : List (String × String), (m.map Prod.fst).Nodup →
      ((ps.foldl (fun m p => dictInsert m p.1 p.2) m).map Prod.fst).Nodup by
    exact h [] (by simp)
  induction ps with
  | nil => intro m hm; exact hm
  | cons p rest ih =>
    intro m hm
    exact ih _ (dictInsert_keys_nodup m p.1 p.2 hm)

theorem dictLookup_self (m : List (String × String))
    (h : (m.map Prod.fst).Nodup) :
    ∀ p ∈ m, dictLookup m p.1 = some p.2 := by
  induction m with
  | nil => intro p hp; cases hp
  | cons q rest ih =>
    intro p hp
    simp only [List.map_cons, List.nodup_cons] at h
    rcases List.mem_cons.mp hp with rfl | hp
    · unfold dictLookup
      rw [List.find?_cons_of_pos _ (by simp)]
    · have hq : ¬(q.1 == p.1) = true := by
        intro hb
        exact h.1 (beq_iff_eq.mp hb ▸ List.mem_map_of_mem Prod.fst hp)
      have hfind : List.find? (fun r => r.1 == p.1) (q :: rest)
          = List.find? (fun r => r.1 == p.1) rest :=
        List.find?_cons_of_neg rest hq
      unfold dictLookup
      rw [hfind]
      exact ih h.2 p hp

theorem dictEqb_self (m : List (String × String))
    (h : (m.map Prod.fst).Nodup) : dictEqb m m = true := by
  unfold dictEqb
  rw [Bool.and_self]
  rw [List.all_eq_true]
  intro p hp
  rw [dictLookup_self m h p hp]
  simp

theorem foldl_dictInsert_append (ps : List (String × String)) :
    ∀ init : List (String × String),
    (∀ p ∈ ps, ∀ q ∈ init, q.1 ≠ p.1) →
    (ps.map Prod.fst).Nodup →
    ps.foldl (fun m p => dictInsert m p.1 p.2) init = init ++ ps := by
  induction ps with
  | nil => intro init _ _; simp
  | cons p rest ih =>
    intro init hdisj hnd
    simp only [List.map_cons, List.nodup_cons] at hnd
    simp only [List.foldl_cons]
    have hnotany : ¬(init.any fun q => q.1 == p.1) = true := by
      intro hany
      rcases List.any_eq_true.mp hany with ⟨q, hq, hb⟩
      exact hdisj p (by simp) q hq (beq_iff_eq.mp hb)
    have hins : dictInsert init p.1 p.2 = init ++ [p] := by
      unfold dictInsert
      rw [if_neg hnotany, Prod.mk.eta]
    rw [hins, ih (init ++ [p]) ?_ hnd.2]
    · rw [List.append_assoc]
      rfl
    · intro r hr q hq
      rcases List.mem_append.mp hq with hq | hq
      · exact hdisj r (by simp [hr]) q hq
      · rw [List.mem_singleton.mp hq]
        intro hpr
        exact hnd.1 (hpr ▸ List.mem_map_of_mem Prod.fst hr)

theorem dictOfPairs_eq_self (ps : List (String × String))
    (hnd : (ps.map Prod.fst).Nodup) : dictOfPairs ps = ps := by
  unfold dictOfPairs
  rw [foldl_dictInsert_append ps [] (by intro p _ q hq; cases hq) hnd]
  rfl

theorem pair_keys (F : List FileMeta) :
    ((F.map (fun f => (f.id, f.etag))).map Prod.fst) = F.map FileMeta.id := by
  rw [List.map_map]
  rfl

/-- C8 (amended): `manifests_equal (build_manifest F) (build_manifest F)`
is true for every file list F (reflexivity), and — provided the file
identities are pairwise distinct — for any second snapshot with the same
identities elementwise, a change to any file's fingerprint (etag) makes
`manifests_equal` of the two manifests false. -/
theorem build_manifest_reflexive_and_detects_change :
    (∀ F : List FileMeta,
      manifests_equal (build_manifest F) (build_manifest F) = true) ∧
    (∀ (F G : List FileMeta),
      F.map FileMeta.id = G.map FileMeta.id →
      (F.map FileMeta.id).Nodup →
      ∀ (i : Nat) (hF : i < F.length) (hG : i < G.length),
      F[i].etag ≠ G[i].etag →
      manifests_equal (build_manifest F) (build_manifest G) = false) := by
  constructor
  · intro F
    unfold manifests_equal build_manifest
    rw [dictEqb_self _ (dictOfPairs_keys_nodup _)]
    simp
  · intro F G hid hnd i hF hG hne
    unfold manifests_equal build_manifest
    have hndG : (G.map FileMeta.id).Nodup := hid ▸ hnd
    rw [dictOfPairs_eq_self _ (by rw [pair_keys]; exact hnd),
      dictOfPairs_eq_self _ (by rw [pair_keys]; exact hndG)]
    have hidi : F[i].id = G[i].id := by
      have h1 := congrArg (fun l : List String => l.getD i "") hid
      simp only [List.getD_eq_getElem _ _ (show i < (F.map FileMeta.id).length
          by simpa using hF),
        List.getD_eq_getElem _ _ (show i < (G.map FileMeta.id).length
          by simpa using hG),
        List.getElem_map] at h1
      exact h1
    have hPi : i < (F.map (fun f => (f.id, f.etag))).length := by simpa using hF
    have hQi : i < (G.map (fun f => (f.id, f.etag))).length := by simpa using hG
    have hlook : dictLookup (G.map (fun f => (f.id, f.etag))) (G[i].id)
        = some (G[i].etag) := by
      have hmem : (G[i].id, G[i].etag) ∈ G.map (fun f => (f.id, f.etag)) := by
        have := List.getElem_mem hQi
        rwa [List.getElem_map] at this
      exact dictLookup_self _ (by rw [pair_keys]; exact hndG)
        (G[i].id, G[i].etag) hmem
    have hallF : ((F.map (fun f => (f.id, f.etag))).all
        (fun p => dictLookup (G.map (fun f => (f.id, f.etag))) p.1
          == some p.2)) = false := by
      rw [List.all_eq_false]
      refine ⟨(F[i].id, F[i].etag), ?_, ?_⟩
      · have := List.getElem_mem hPi
        rwa [List.getElem_map] at this
      · rw [hidi, hlook]
        simp only [beq_iff_eq, Option.some.injEq]
        intro hcontra
        exact hne hcontra.symm
    unfold dictEqb
    rw [hallF]
    simp

/-- Witness for C8 (amended) at concrete inputs: a one-file list is
manifest-equal to itself, and changing its etag from `"e1"` to `"e2"` is
detected. -/
theorem build_manifest_reflexive_and_detects_change_witness :
    manifests_equal (build_manifest [⟨"id1", "a.txt", "e1", 3, "t1"⟩])
        (build_manifest [⟨"id1", "a.txt", "e1", 3, "t1"⟩]) = true ∧
    manifests_equal (build_manifest [⟨"id1", "a.txt", "e1", 3, "t1"⟩])
        (build_manifest [⟨"id1", "a.txt", "e2", 3, "t1"⟩]) = false :=
  ⟨build_manifest_reflexive_and_detects_change.1 _,
   build_manifest_reflexive_and_detects_change.2
     [⟨"id1", "a.txt", "e1", 3, "t1"⟩] [⟨"id1", "a.txt", "e2", 3, "t1"⟩]
     (by decide) (by decide) 0 (by decide) (by decide) (by decide)⟩

/-- Counterexample to C8 as stated: with a duplicate file identity the
id->etag dict comprehension lets the later entry shadow the earlier one,
so changing the first file's fingerprint (`"1"` to `"0"`) between two
snapshots of the same file list goes undetected: `manifests_equal` is
still true. -/
theorem manifests_equal_misses_etag_change :
    ([⟨"a", "n1", "1", 0, "t"⟩, ⟨"a", "n2", "2", 0, "t"⟩] :
        List FileMeta).map FileMeta.id
      = ([⟨"a", "n1", "0", 0, "t"⟩, ⟨"a", "n2", "2", 0, "t"⟩] :
        List FileMeta).map FileMeta.id ∧
    ("1" : String) ≠ "0" ∧
    manifests_equal
      (build_manifest [⟨"a", "n1", "1", 0, "t"⟩, ⟨"a", "n2", "2", 0, "t"⟩])
      (build_manifest [⟨"a", "n1", "0", 0, "t"⟩, ⟨"a", "n2", "2", 0, "t"⟩])
      = true := by
  decide

/-- C10: drift detection is insensitive to all file metadata except
identity and fingerprint: if two file lists agree elementwise on the
`(id, etag)` pairs, their manifests compare equal under `manifests_equal`,
whatever their names, sizes or modification times. -/
theorem manifest_metadata_insensitive (F G : List FileMeta)
    (h : F.map (fun f => (f.id, f.etag)) = G.map (fun f => (f.id, f.etag))) :
    manifests_equal (build_manifest F) (build_manifest G) = true := by
  unfold manifests_equal build_manifest
  have hlen : F.length = G.length := by
    have := congrArg List.length h
    simpa using this
  rw [← h, dictEqb_self _ (dictOfPairs_keys_nodup _), hlen]
  simp

/-- Witness for C10 at a concrete input: same id and etag, different name,
size and modification time — no drift detected. -/
theorem manifest_metadata_insensitive_witness :
    manifests_equal (build_manifest [⟨"i", "old.pdf", "e", 1, "t1"⟩])
      (build_manifest [⟨"i", "new name.pdf", "e", 999, "t2"⟩]) = true :=
  manifest_metadata_insensitive _ _ (by decide)

/-- Modelled from the spec: the Chunker of §4.2.  The repository delegates
chunking to an external text-splitter library
(`RecursiveCharacterTextSplitter`, `app/qa_engine.py` lines 175-176) whose
implementation is not part of this repository; this definition follows the
spec's contract: deterministic fixed-size segments of up to `size`
characters, consecutive segments sharing `overlap` characters of repeated
content, covering the whole input. -/
def chunk (text : List Char) (size overlap : Nat) : List (List Char) :=
  if _h : text.length ≤ size ∨ size ≤ overlap then [text]
  else text.take size :: chunk (text.drop (size - overlap)) size overlap
termination_by text.length
decreasing_by
  simp only [List.length_drop]
  omega

/-- Stripping each segment's `overlap` with its predecessor and
concatenating: the reconstruction described by §4.2 and §8 of the spec. -/
def reassemble (overlap : Nat) : List (List Char) → List Char
  | [] => []
  | c :: cs => c ++ (cs.map (List.drop overlap)).flatten

theorem chunk_head (text : List Char) (size overlap : Nat)
    (hov : overlap < size) :
    ∃ tl, chunk text size overlap = text.take size :: tl := by
  rw [chunk]
  by_cases h : text.length ≤ size ∨ size ≤ overlap
  · rw [dif_pos h]
    rcases h with h | h
    · exact ⟨[], by rw [List.take_of_length_le h]⟩
    · omega
  · rw [dif_neg h]
    exact ⟨_, rfl⟩

/-- C3: for every text and every `size` and `overlap` with
`overlap < size`, chunking yields segments which, concatenated with each
segment's overlap with its predecessor stripped, reconstruct the text
exactly — full coverage, no gaps, no lost characters. -/
theorem chunk_reconstructs (size overlap : Nat) (hov : overlap < size) :
    ∀ text : List Char,
      reassemble overlap (chunk text size overlap) = text := by
  suffices main : ∀ (n : Nat) (text : List Char), text.length ≤ n →
      reassemble overlap (chunk text size overlap) = text by
    intro text
    exact main text.length text (le_refl _)
  intro n
  induction n with
  | zero =>
    intro text ht
    have : text = [] := List.length_eq_zero.mp (Nat.le_zero.mp ht)
    subst this
    rw [chunk, dif_pos (Or.inl (by simp))]
    simp [reassemble]
  | succ n ih =>
    intro text ht
    by_cases hc : text.length ≤ size ∨ size ≤ overlap
    · rw [chunk, dif_pos hc]
      simp [reassemble]
    · rw [chunk, dif_neg hc]
      have hlong : size < text.length := by omega
      have hstep : 0 < size - overlap := by omega
      have ht' : (text.drop (size - overlap)).length ≤ n := by
        rw [List.length_drop]
        omega
      have ihr := ih (text.drop (size - overlap)) ht'
      rcases chunk_head (text.drop (size - overlap)) size overlap hov
        with ⟨tl, htl⟩
      rw [htl] at ihr ⊢
      rw [reassemble] at ihr ⊢
      rw [List.map_cons, List.flatten_cons]
      have hhd : overlap
          ≤ ((text.drop (size - overlap)).take size).length := by
        rw [List.length_take, List.length_drop]
        omega
      rw [← List.drop_append_of_le_length hhd, ihr, List.drop_drop]
      have hso : size - overlap + overlap = size := by omega
      rw [hso, List.take_append_drop]

/-- Witness for C3 at a concrete input: `size = 4`, `overlap = 1`,
text `"abcdefgh"`. -/
theorem chunk_reconstructs_witness :
    (1 : Nat) < 4 ∧
    reassemble 1 (chunk "abcdefgh".data 4 1) = "abcdefgh".data :=
  ⟨by decide, chunk_reconstructs 4 1 (by decide) "abcdefgh".data⟩

/-- Abstraction of a FAISS vector store: the chunk texts it indexes (the
embedding vectors play no role in the claims verified here). -/
structure FAISSStore where
  docs : List String
deriving DecidableEq, Repr

/-- A built retrieval-QA chain, as assembled in steps 4-7 of
`build_qa_engine` (`app/qa_engine.py` lines 182-216): a retriever over the
vector store and the completion-provider call. -/
structure RetrievalQA where
  retriever : String → List String
  llm : String → Except String String

/-- Error kinds of the build path.  The constructor name follows the
spec's error taxonomy (§7); in the code the condition is the
`ValueError("Cannot build vectorstore — no raw_text provided.")` raised at
`app/qa_engine.py` line 169. -/
inductive BuildError where
  | EmptyInputError
deriving DecidableEq, Repr

/-- `build_qa_engine` (`app/qa_engine.py` lines 150-218).  The external
collaborators — the sanitize/chunk/embed pipeline, nearest-neighbour
retrieval and the completion provider — are abstract parameters; the
control flow is the source's: a supplied `load_vectorstore_obj` is used
directly, otherwise a falsy `raw_text` (Python `None` or `""`) raises,
otherwise the pipeline builds a fresh store.  The retriever keeps
`k = 6` results (`search_kwargs={"k": 6}`, line 183). -/
def build_qa_engine
    (pipeline : String → FAISSStore)
    (retrieve : FAISSStore → String → List String)
    (llm : String → Except String String)
    (raw_text : Option String)
    (load_vectorstore_obj : Option FAISSStore) :
    Except BuildError (RetrievalQA × FAISSStore) :=
  match load_vectorstore_obj with
  | some v =>
    .ok ({ retriever := fun q => (retrieve v q).take 6, llm := llm }, v)
  | none =>
    match raw_text with
    | none => .error .EmptyInputError
    | some t =>
      if t = "" then .error .EmptyInputError
      else
        let v := pipeline t
        .ok ({ retriever := fun q => (retrieve v q).take 6, llm := llm }, v)

/-- C4: building a new index — no preloaded vectorstore supplied — with
empty input (`raw_text` is Python-falsy: `None` or the empty string, so
there is no text and hence no chunks to index) fails with
`EmptyInputError`, for every choice of external collaborators. -/
theorem build_qa_engine_empty_input
    (pipeline : String → FAISSStore)
    (retrieve : FAISSStore → String → List String)
    (llm : String → Except String String)
    (raw_text : Option String)
    (h : raw_text = none ∨ raw_text = some "") :
    build_qa_engine pipeline retrieve llm raw_text none
      = .error .EmptyInputError := by
  rcases h with rfl | rfl
  · rfl
  · simp [build_qa_engine]

/-- Witness for C4 at a concrete input: `raw_text = some ""` and concrete
collaborators. -/
theorem build_qa_engine_empty_input_witness :
    ((some "" : Option String) = none ∨ (some "" : Option String) = some "")
      ∧
    build_qa_engine (fun t => ⟨[t]⟩) (fun v _ => v.docs) (fun p => .ok p)
      (some "") none = .error .EmptyInputError :=
  ⟨Or.inr rfl,
   build_qa_engine_empty_input (fun t => ⟨[t]⟩) (fun v _ => v.docs)
     (fun p => .ok p) (some "") (Or.inr rfl)⟩

/-- Error kinds of the query path.  The constructor names follow the
spec's error taxonomy (§7): in the code, `NoIndexLoadedError` is the
`TypeError` raised when `page_chat` invokes `st.session_state.qa` while it
is still `None` (no hub loaded, `app/app.py` line 285, caught and
displayed by the surrounding handler), and `ProviderError` is a failure of
the completion call surfaced unmodified. -/
inductive QueryError where
  | NoIndexLoadedError
  | ProviderError
deriving DecidableEq, Repr

/-- Answer payload of a chain invocation: `result` text plus
`source_documents` citations (`app/app.py` lines 286-290). -/
structure QAResult where
  result : String
  source_documents : List String
deriving DecidableEq, Repr

/-- The "stuff" prompt of `build_qa_engine` (`app/qa_engine.py` lines
192-206) composed with retrieved context and the user question. -/
def stuff_prompt (context question : String) : String :=
  "Use the context below to answer accurately and completely.\n\n"
    ++ "- Always use the provided context.\n"
    ++ "- Infer missing details logically if partially available.\n"
    ++ "- If the question is generic, answer in the context domain.\n"
    ++ "- Be concise and clear.\n\nContext:\n" ++ context
    ++ "\n\nQuestion:\n" ++ question ++ "\n\nAnswer:\n"

/-- One invocation of the retrieval-QA chain: retrieve, compose the
prompt, call the completion provider; a provider failure is surfaced, not
replaced by a fallback answer. -/
def run_retrieval_qa (chain : RetrievalQA) (query : String) :
    Except QueryError QAResult :=
  let docs := chain.retriever query
  match chain.llm (stuff_prompt (String.intercalate "\n\n" docs) query) with
  | .ok ans => .ok ⟨ans, docs⟩
  | .error _ => .error .ProviderError

/-- The query-submission path of `page_chat` (`app/app.py` lines 282-292):
`st.session_state.qa({"query": user_query})`.  The second component counts
how many chain invocations (hence retrievals) were performed: invoking a
loaded chain retrieves exactly once; with no chain loaded the call fails
immediately and nothing is retrieved. -/
def page_chat_query (qa : Option RetrievalQA) (query : String) :
    Except QueryError QAResult × Nat :=
  match qa with
  | none => (.error .NoIndexLoadedError, 0)
  | some chain => (run_retrieval_qa chain query, 1)

/-- C5: for every query issued when no hub is loaded (the session's `qa`
is absent), the answering operation fails with `NoIndexLoadedError` and
performs zero retrievals — it fails before any retrieval is attempted. -/
theorem page_chat_query_no_index (query : String) :
    page_chat_query none query = (.error .NoIndexLoadedError, 0) := rfl

/-- State of the auto-sync loop of `page_settings` (`app/app.py` lines
412-431): the `autosync` checkbox value captured before the loop, the last
persisted manifest, and a count of rebuilds performed. -/
structure AutoSyncState where
  autosync : Bool
  manifest : Manifest
  rebuilds : Nat

/-- One iteration of `while autosync:` (`app/app.py` lines 415-431):
sleep, re-fetch the remote file metadata (`fetch n` is the remote listing
observed at iteration `n`), build a fresh manifest, and — only when
`manifests_equal` is false — rebuild the vectorstore and persist the new
manifest.  The body assigns `manifest` and performs work, but never
assigns `autosync`. -/
def autosync_iteration (fetch : Nat → List FileMeta) (n : Nat)
    (st : AutoSyncState) : AutoSyncState :=
  let new_manifest := build_manifest (fetch n)
  if manifests_equal st.manifest new_manifest then
    st
  else
    { st with manifest := new_manifest, rebuilds := st.rebuilds + 1 }

/-- Running `n` iterations of the auto-sync loop body. -/
def autosync_run (fetch : Nat → List FileMeta) :
    Nat → AutoSyncState → AutoSyncState
  | 0, st => st
  | n + 1, st => autosync_run fetch n (autosync_iteration fetch n st)

theorem autosync_iteration_preserves_flag (fetch : Nat → List FileMeta)
    (n : Nat) (st : AutoSyncState) :
    (autosync_iteration fetch n st).autosync = st.autosync := by
  unfold autosync_iteration
  dsimp only
  split
  · rfl
  · rfl

theorem autosync_run_preserves_flag (fetch : Nat → List FileMeta) :
    ∀ (n : Nat) (st : AutoSyncState),
    (autosync_run fetch n st).autosync = st.autosync := by
  intro n
  induction n with
  | zero => intro st; rfl
  | succ n ih =>
    intro st
    rw [autosync_run, ih, autosync_iteration_preserves_flag]

/-- C6 (code-level behaviour at the failing input): the `while autosync:`
loop's condition variable is a local captured once from the checkbox and
is never assigned inside the body, so once the loop is entered with
auto-sync enabled the condition still holds after every number of
iterations, whatever the remote source does — the loop has no cancellation
point, never exits, and blocks `page_settings` indefinitely. -/
theorem autosync_loop_never_cancels (fetch : Nat → List FileMeta)
    (m : Manifest) (r n : Nat) :
    (autosync_run fetch n
      { autosync := true, manifest := m, rebuilds := r }).autosync
      = true := by
  rw [autosync_run_preserves_flag]

/-- Behaviour of the extraction wrappers of `app/file_loader.py`
(`extract_text_from_pdf_bytes`, `extract_text_from_docx_bytes`,
`extract_text_from_excel_bytes`, `extract_text_from_zip_bytes`, lines
9-35): each delegates to an external library (PyPDF2, python-docx, pandas,
zipfile) that may raise on malformed bytes, and none of these wrappers
catches anything, so they are abstract fallible functions here.  Bytes are
modelled as lists of naturals below 256. -/
structure Extractors where
  pdf : List Nat → Except String String
  docx : List Nat → Except String String
  excel : List Nat → Except String String
  zipArchive : List Nat → Except String String

/-- `file_bytes.decode("utf-8", errors="ignore")` (`app/file_loader.py`
line 50): a total best-effort decode — undecodable bytes are skipped,
never an exception.  (Only its totality matters for the claims below;
multi-byte sequences are elided by keeping the ASCII range.) -/
def decodeUtf8Ignore (b : List Nat) : String :=
  String.mk ((b.filter (fun x => x < 128)).map (fun x => Char.ofNat x))

/-- Python `str.lower()` on a filename modelled as a character list. -/
def strLower (s : List Char) : List Char := s.map Char.toLower

/-- Python `str.endswith(suffix)`. -/
def strEndsWith (s suffix : List Char) : Bool :=
  suffix == s.drop (s.length - suffix.length)

/-- `get_raw_text(file_bytes, filename)` (`app/file_loader.py` lines
37-52): lowercase the filename and dispatch on its extension.  The four
recognized extensions call the corresponding extractor directly — there is
no try/except around these branches, so a library failure propagates past
the boundary.  Only the unrecognized-extension fallback is guarded by
try/except returning `""`; the guarded decode is itself total. -/
def get_raw_text (ext : Extractors) (file_bytes : List Nat)
    (filename : List Char) : Except String String :=
  let fn := strLower filename
  if strEndsWith fn ".pdf".data then ext.pdf file_bytes
  else if strEndsWith fn ".docx".data then ext.docx file_bytes
  else if strEndsWith fn ".xlsx".data || strEndsWith fn ".xls".data then
    ext.excel file_bytes
  else if strEndsWith fn ".zip".data then ext.zipArchive file_bytes
  else .ok (decodeUtf8Ignore file_bytes)

/-- A concrete admissible library behaviour: PyPDF2's `PdfReader` raises
`PdfReadError("Cannot read an empty file")` when handed empty bytes; the
other libraries succeed here. -/
def pypdf2LikeExtractors : Extractors :=
  { pdf := fun b =>
      if b.isEmpty then .error "PdfReadError: Cannot read an empty file"
      else .ok "",
    docx := fun _ => .ok "",
    excel := fun _ => .ok "",
    zipArchive := fun _ => .ok "" }

/-- Counterexample to C7 as stated: `get_raw_text` does not return a
string for every byte string and filename — the recognized-extension
branches are unguarded, so the empty byte string under the filename
`"report.pdf"` propagates the PDF library's exception instead of returning
empty text. -/
theorem get_raw_text_raises_on_bad_pdf :
    get_raw_text pypdf2LikeExtractors [] "report.pdf".data
      = .error "PdfReadError: Cannot read an empty file" := by
  rfl

/-- C7 (amended): for every library behaviour, every byte string and every
filename whose lowercased form ends in none of the recognized extensions
(`.pdf`, `.docx`, `.xlsx`, `.xls`, `.zip`), `get_raw_text` returns a
string via the best-effort raw decode and never fails; recognized
extensions instead propagate extractor failures. -/
theorem get_raw_text_fallback_total (ext : Extractors) (b : List Nat)
    (filename : List Char)
    (h : ¬(strEndsWith (strLower filename) ".pdf".data = true) ∧
         ¬(strEndsWith (strLower filename) ".docx".data = true) ∧
         ¬((strEndsWith (strLower filename) ".xlsx".data
            || strEndsWith (strLower filename) ".xls".data) = true) ∧
         ¬(strEndsWith (strLower filename) ".zip".data = true)) :
    get_raw_text ext b filename = .ok (decodeUtf8Ignore b) := by
  unfold get_raw_text
  rw [if_neg h.1, if_neg h.2.1, if_neg h.2.2.1, if_neg h.2.2.2]

/-- Witness for C7 (amended) at a concrete input: the filename
`"notes.txt"` with bytes `[72, 105]` falls back to the raw decode under
the concrete library behaviour. -/
theorem get_raw_text_fallback_total_witness :
    (¬(strEndsWith (strLower "notes.txt".data) ".pdf".data = true) ∧
     ¬(strEndsWith (strLower "notes.txt".data) ".docx".data = true) ∧
     ¬((strEndsWith (strLower "notes.txt".data) ".xlsx".data
        || strEndsWith (strLower "notes.txt".data) ".xls".data) = true) ∧
     ¬(strEndsWith (strLower "notes.txt".data) ".zip".data = true)) ∧
    get_raw_text pypdf2LikeExtractors [72, 105] "notes.txt".data
      = .ok (decodeUtf8Ignore [72, 105]) :=
  ⟨by decide,
   get_raw_text_fallback_total pypdf2LikeExtractors [72, 105]
     "notes.txt".data (by decide)⟩
